import Mathlib

/-!
Verification development for the versioned snapshot store of the debug-pro
repository (src/app/modules/code_ingestion).  The Python source is shallowly
embedded: pydantic models become structures, Python dicts become association
lists with first-occurrence lookup and in-place replacement (matching the
unique-key/insertion-order semantics of Python dicts), `datetime.now()` and the
uuid generator become explicit `now` / id string parameters, `await`ed storage
calls become explicit state passing over a `StorageState`, and Python
exceptions become `Except PyErr`.
-/

set_option linter.unusedVariables false

namespace DebugPro

/-- Association-list model of a Python `dict` keyed by strings: lookup returns
the value of the first occurrence of a key (a real dict holds each key once). -/
abbrev Dict (α : Type) := List (String × α)

/-- Lookup of `d[k]`, `none` when the key is absent. -/
def dget? {α : Type} : Dict α → String → Option α
  | [], _ => none
  | (k, v) :: rest, key => if key = k then some v else dget? rest key

/-- Assignment `d[k] = v` of a Python dict: replace the value in place when the
key exists (keeping its position), otherwise append the new key at the end. -/
def dset {α : Type} : Dict α → String → α → Dict α
  | [], key, val => [(key, val)]
  | (k, v) :: rest, key, val =>
      if k = key then (k, val) :: rest else (k, v) :: dset rest key val

/-- Deletion `del d[k]`: removes the entry for the key. -/
def derase {α : Type} : Dict α → String → Dict α
  | [], _ => []
  | (k, v) :: rest, key => if k = key then derase rest key else (k, v) :: derase rest key

/-- The key list `d.keys()` of a dict. -/
def dkeys {α : Type} (d : Dict α) : List String := d.map Prod.fst

@[simp] theorem dget?_nil {α : Type} (k : String) : dget? ([] : Dict α) k = none := rfl

@[simp] theorem dget?_cons {α : Type} (k : String) (p : String × α) (rest : Dict α) :
    dget? (p :: rest) k = if k = p.1 then some p.2 else dget? rest k := rfl

@[simp] theorem dkeys_nil {α : Type} : dkeys ([] : Dict α) = [] := rfl

@[simp] theorem dkeys_cons {α : Type} (p : String × α) (rest : Dict α) :
    dkeys (p :: rest) = p.1 :: dkeys rest := rfl

theorem dget?_isSome_iff_mem {α : Type} (d : Dict α) (k : String) :
    (dget? d k).isSome ↔ k ∈ dkeys d := by
  induction d with
  | nil => simp
  | cons p rest ih =>
      by_cases h : k = p.1 <;> simp [dget?, h, ih]

theorem dget?_dset {α : Type} (d : Dict α) (k : String) (v : α) (k' : String) :
    dget? (dset d k v) k' = if k' = k then some v else dget? d k' := by
  induction d with
  | nil => by_cases h : k' = k <;> simp [dset, dget?, h]
  | cons p rest ih =>
      obtain ⟨pk, pv⟩ := p
      by_cases h1 : pk = k
      · subst h1
        by_cases h2 : k' = pk <;> simp [dset, dget?, h2]
      · by_cases h2 : k' = pk
        · subst h2
          simp [dset, dget?, h1]
        · simp [dset, dget?, h1, h2, ih]

theorem mem_dkeys_dset {α : Type} (d : Dict α) (k : String) (v : α) (k' : String) :
    k' ∈ dkeys (dset d k v) ↔ k' = k ∨ k' ∈ dkeys d := by
  rw [← dget?_isSome_iff_mem, ← dget?_isSome_iff_mem, dget?_dset]
  by_cases h : k' = k <;> simp [h]

theorem dget?_derase {α : Type} (d : Dict α) (k k' : String) :
    dget? (derase d k) k' = if k' = k then none else dget? d k' := by
  induction d with
  | nil => simp [derase]
  | cons p rest ih =>
      obtain ⟨pk, pv⟩ := p
      by_cases h1 : pk = k
      · subst h1
        by_cases h2 : k' = pk
        · subst h2; simp [derase, dget?, ih]
        · simp [derase, dget?, h2, ih]
      · by_cases h2 : k' = pk
        · subst h2
          simp [derase, dget?, h1, ih]
        · simp [derase, dget?, h1, h2, ih]

/-- First-of-two option values, modelling where a dict lookup falls through. -/
def ofirst {α : Type} : Option α → Option α → Option α
  | some v, _ => some v
  | none, b => b

@[simp] theorem ofirst_some {α : Type} (v : α) (b : Option α) : ofirst (some v) b = some v := rfl

@[simp] theorem ofirst_none {α : Type} (b : Option α) : ofirst none b = b := rfl

theorem dget?_append {α : Type} (d1 d2 : Dict α) (k : String) :
    dget? (d1 ++ d2) k = ofirst (dget? d1 k) (dget? d2 k) := by
  induction d1 with
  | nil => simp [dget?]
  | cons p rest ih =>
      by_cases h : k = p.1 <;> simp [dget?, h, ih]

/-- Lookup in a key-preserving map of an association list. -/
theorem dget?_map_entry {α β : Type} (l : Dict α) (g : String → α → β) (k : String) :
    dget? (l.map (fun pc => (pc.1, g pc.1 pc.2))) k = (dget? l k).map (g k) := by
  induction l with
  | nil => simp [dget?]
  | cons p rest ih =>
      obtain ⟨pk, pv⟩ := p
      by_cases h : k = pk
      · subst h; simp [dget?]
      · simp [dget?, h, ih]

theorem dkeys_map_entry {α β : Type} (l : Dict α) (g : String → α → β) :
    dkeys (l.map (fun pc => (pc.1, g pc.1 pc.2))) = dkeys l := by
  induction l with
  | nil => rfl
  | cons p rest ih =>
      simp only [dkeys, List.map_cons] at ih ⊢
      exact congrArg (List.cons p.1) ih

theorem dget?_eq_none_of_not_mem {α : Type} (d : Dict α) (k : String)
    (h : ¬ k ∈ dkeys d) : dget? d k = none := by
  cases hd : dget? d k with
  | none => rfl
  | some v =>
      exact absurd ((dget?_isSome_iff_mem d k).1 (by simp [hd])) h

theorem dget?_reverse_of_nodup {α : Type} (l : Dict α) (h : (dkeys l).Nodup) (k : String) :
    dget? l.reverse k = dget? l k := by
  induction l with
  | nil => rfl
  | cons p rest ih =>
      simp only [dkeys, List.map_cons, List.nodup_cons] at h
      rw [List.reverse_cons, dget?_append, ih h.2]
      by_cases hk : k = p.1
      · subst hk
        have hnone : dget? rest p.1 = none :=
          dget?_eq_none_of_not_mem rest p.1 (by simpa [dkeys] using h.1)
        simp [dget?, hnone]
      · cases hrest : dget? rest k <;> simp [dget?, hk, hrest]

/-!
Embedding of src/app/modules/code_ingestion/metadata.py.
`datetime.now().isoformat()` is modelled as an explicit `now : String`
argument (all clock reads inside one operation return the modelled instant);
`magic.from_buffer` and `ast.parse` are external collaborators, modelled as
function parameters bundled in `PyEnv`.  Python float averages are modelled
as exact rationals.
-/

/-- Record of a Python class found by `analyze_python_structure`. -/
structure PyClassInfo where
  name : String
  lineno : Nat
  methods : List String
deriving DecidableEq, Repr

/-- Record of a Python function found by `analyze_python_structure`. -/
structure PyFunctionInfo where
  name : String
  lineno : Nat
  args : List String
deriving DecidableEq, Repr

/-- The classes/functions/imports summary built by `analyze_python_structure`
from the parsed AST. -/
structure PyStructure where
  classes : List PyClassInfo
  functions : List PyFunctionInfo
  imports : List String
deriving DecidableEq, Repr

/-- The metrics dict built by `calculate_complexity_metrics`. -/
structure ComplexityMetrics where
  total_lines : Nat
  blank_lines : Nat
  comment_lines : Nat
  code_lines : Nat
  average_line_length : ℚ
  max_line_length : Nat
deriving DecidableEq, Repr

/-- A value stored in one of the free-form metadata dicts of this subsystem.
Strings, ints and the two structured payloads that the source nests inside
metadata dicts (the `diff_applied` audit record of apply_diff, and the
complexity/structure records of extract_file_metadata). -/
inductive MVal where
  | mstr (s : String)
  | mint (n : Int)
  | maudit (timestamp : String) (added modified deleted : Nat)
  | mmetrics (m : ComplexityMetrics)
  | mstructure (s : PyStructure)
deriving DecidableEq, Repr

/-- Free-form metadata dict. -/
abbrev Meta := Dict MVal

/-- External collaborators of the metadata extractor: `ast.parse` (together
with the deterministic AST walk of `analyze_python_structure`, returning the
summary or a `SyntaxError`, its documented failure mode on unparsable source)
and libmagic's `magic.from_buffer` (a deterministic function of the content). -/
structure PyEnv where
  parse : String → Except Unit PyStructure
  mime : String → String

/-- Splitting a char list on a separator, Python `str.split(sep)` style (the
empty list yields one empty group, as `"".split(sep)` yields `['']`). -/
def splitOnChar (sep : Char) : List Char → List (List Char)
  | [] => [[]]
  | c :: cs =>
      match splitOnChar sep cs with
      | [] => [[c]]
      | g :: gs => if c = sep then [] :: g :: gs else (c :: g) :: gs

/-- ASCII lowercasing of a string, Python `str.lower()` on the inputs used. -/
def lowerStr (s : String) : String := String.mk (s.toList.map Char.toLower)

/-- Boolean prefix test on char lists (Python `startswith`). -/
def charsStart : List Char → List Char → Bool
  | [], _ => true
  | _ :: _, [] => false
  | a :: as, b :: bs => a = b && charsStart as bs

/-- Boolean substring test on char lists (Python `in` on strings). -/
def charsContain (needle : List Char) : List Char → Bool
  | [] => charsStart needle []
  | b :: bs => charsStart needle (b :: bs) || charsContain needle bs

/-- Splits the final path component at its last dot and returns the extension
(with the dot), following `os.path.splitext`: a run of leading dots does not
start an extension. Helper: split a char list at its last dot. -/
def splitAtLastDot : List Char → Option (List Char × List Char)
  | [] => none
  | c :: cs =>
      match splitAtLastDot cs with
      | some (b, e) => some (c :: b, e)
      | none => if c = '.' then some ([], c :: cs) else none

/-- The `os.path.splitext(path)[1]` extension of a path. -/
def splitextExt (path : String) : String :=
  let name := (splitOnChar '/' path.toList).getLastD path.toList
  match splitAtLastDot name with
  | none => ""
  | some (base, ext) => if base.all (fun c => c = '.') then "" else String.mk ext

/-- The fixed extension-to-language table of `detect_language`. -/
def languageMap : Dict String :=
  [(".py", "Python"), (".js", "JavaScript"), (".ts", "TypeScript"),
   (".jsx", "React"), (".tsx", "React TypeScript"), (".java", "Java"),
   (".cpp", "C++"), (".c", "C"), (".go", "Go"), (".rb", "Ruby"),
   (".php", "PHP"), (".rs", "Rust"), (".swift", "Swift"), (".kt", "Kotlin"),
   (".cs", "C#"), (".html", "HTML"), (".css", "CSS"), (".scss", "SCSS"),
   (".sql", "SQL"), (".md", "Markdown"), (".json", "JSON"),
   (".yaml", "YAML"), (".yml", "YAML"), (".xml", "XML"), (".sh", "Shell"),
   (".bash", "Shell")]

/-- `detect_language(file_path, content)`: extension lookup with `"Unknown"`
default; the content argument is ignored by the source as well. -/
def detectLanguage (filePath : String) (content : String) : String :=
  (dget? languageMap (lowerStr (splitextExt filePath))).getD "Unknown"

/-- Python `str.splitlines()` for newline-terminated text (the source's line
metrics; modelled for `\n` line endings), as char-list lines. -/
def pySplitlines (s : String) : List (List Char) :=
  match s.toList with
  | [] => []
  | cs =>
      let groups := splitOnChar '\n' cs
      if cs.getLast? = some '\n' then groups.dropLast else groups

/-- Python `str.strip()` on a line (whitespace at both ends). -/
def stripChars (cs : List Char) : List Char :=
  ((cs.dropWhile Char.isWhitespace).reverse.dropWhile Char.isWhitespace).reverse

/-- `calculate_complexity_metrics(content)`: line counts and line-length
statistics (0 for empty content). -/
def calculateComplexityMetrics (content : String) : ComplexityMetrics :=
  let lines := pySplitlines content
  { total_lines := lines.length
  , blank_lines := (lines.filter (fun line => (stripChars line).isEmpty)).length
  , comment_lines :=
      (lines.filter (fun line => charsStart ['#'] (stripChars line))).length
  , code_lines := (lines.filter (fun line =>
      ¬ (stripChars line).isEmpty ∧ ¬ charsStart ['#'] (stripChars line))).length
  , average_line_length :=
      if lines.isEmpty then 0
      else ((lines.map List.length).sum : ℚ) / (lines.length : ℚ)
  , max_line_length := (lines.map List.length).foldr max 0 }

/-- `analyze_python_structure(content)`: parse and summarize; a `SyntaxError`
is caught and degrades to empty classes/functions/imports lists. -/
def analyzePythonStructure (parse : String → Except Unit PyStructure)
    (content : String) : PyStructure :=
  match parse content with
  | Except.ok s => s
  | Except.error _ => ⟨[], [], []⟩

/-- `extract_file_metadata(file_path, content)`: language tag, char count,
mime type, the invocation timestamp as `last_modified`, complexity metrics,
and (for Python) the structural summary under the `structure` key. -/
def extractFileMetadata (env : PyEnv) (now : String)
    (filePath : String) (content : String) : Meta :=
  let language := detectLanguage filePath content
  let base : Meta :=
    [("language", MVal.mstr language),
     ("size_bytes", MVal.mint (content.length : Int)),
     ("mime_type", MVal.mstr (env.mime content)),
     ("last_modified", MVal.mstr now),
     ("complexity_metrics", MVal.mmetrics (calculateComplexityMetrics content))]
  if language = "Python" then
    base ++ [("structure", MVal.mstructure (analyzePythonStructure env.parse content))]
  else base

/-!
Embedding of the data model (src/app/schemas/common.py) and of
src/app/modules/code_ingestion/diff.py.  Timestamps are their ISO strings.
-/

/-- `CodeFile` of app.schemas.common. -/
structure CodeFile where
  path : String
  content : String
  metadata : Option Meta
deriving DecidableEq, Repr

/-- `CodeSnapshot` of app.schemas.common. -/
structure CodeSnapshot where
  id : String
  timestamp : String
  files : Dict CodeFile
  metadata : Option Meta
deriving DecidableEq, Repr

/-- `DiffResult` of app.schemas.common. -/
structure DiffResult where
  added : Dict CodeFile
  modified : Dict CodeFile
  deleted : List String
deriving DecidableEq, Repr

/-- Content of the file stored at a path, when present. -/
def contentAt (files : Dict CodeFile) (p : String) : Option String :=
  (dget? files p).map CodeFile.content

/-- `calculate_diff(old_snapshot, new_snapshot)`: classify paths into
added / modified (exact content string comparison) / deleted. -/
def calculateDiff (old_snapshot new_snapshot : CodeSnapshot) : DiffResult :=
  let old_files := old_snapshot.files
  let new_files := new_snapshot.files
  let old_paths := dkeys old_files
  let new_paths := dkeys new_files
  let added_paths := new_paths.filter (fun p => decide (¬ p ∈ old_paths))
  let deleted_paths := old_paths.filter (fun p => decide (¬ p ∈ new_paths))
  let common_paths := old_paths.filter (fun p => decide (p ∈ new_paths))
  let modified_paths := common_paths.filter
    (fun p => decide (contentAt old_files p ≠ contentAt new_files p))
  { added := added_paths.map (fun p => (p, (dget? new_files p).getD ⟨p, "", none⟩))
  , modified := modified_paths.map (fun p => (p, (dget? new_files p).getD ⟨p, "", none⟩))
  , deleted := deleted_paths }

/-- The additions pass of `apply_diff`: `updated_files[path] = file` for each
added entry. -/
def applyAdds (d : Dict CodeFile) (l : Dict CodeFile) : Dict CodeFile :=
  l.foldl (fun acc kv => dset acc kv.1 kv.2) d

/-- The modifications pass of `apply_diff`: overwrite only when the path is
already present in the working set. -/
def applyMods (d : Dict CodeFile) (l : Dict CodeFile) : Dict CodeFile :=
  l.foldl (fun acc kv => if (dget? acc kv.1).isSome then dset acc kv.1 kv.2 else acc) d

/-- The deletions pass of `apply_diff`: delete the path when present. -/
def applyDels (d : Dict CodeFile) (l : List String) : Dict CodeFile :=
  l.foldl (fun acc p => if (dget? acc p).isSome then derase acc p else acc) d

/-- `apply_diff(base_snapshot, diff)`: additions, then guarded modifications,
then deletions; same id, fresh timestamp, metadata extended with the
`diff_applied` audit record. -/
def applyDiff (base_snapshot : CodeSnapshot) (diff : DiffResult) (now : String) :
    CodeSnapshot :=
  let updated := applyDels (applyMods (applyAdds base_snapshot.files diff.added)
    diff.modified) diff.deleted
  { id := base_snapshot.id
  , timestamp := now
  , files := updated
  , metadata := some (dset (base_snapshot.metadata.getD []) "diff_applied"
      (MVal.maudit now diff.added.length diff.modified.length diff.deleted.length)) }

/-- The plain-dict image of a `CodeFile` under pydantic's `.dict()`. -/
structure CodeFileDictRepr where
  path : String
  content : String
  metadata : Option Meta
deriving DecidableEq, Repr

/-- `file.dict()` for a CodeFile. -/
def codeFileToDict (f : CodeFile) : CodeFileDictRepr :=
  ⟨f.path, f.content, f.metadata⟩

/-- `CodeFile(**file_dict)`. -/
def codeFileFromDict (d : CodeFileDictRepr) : CodeFile :=
  ⟨d.path, d.content, d.metadata⟩

/-- The nested plain mapping produced by `serialize_diff`. -/
structure SerializedDiff where
  added : Dict CodeFileDictRepr
  modified : Dict CodeFileDictRepr
  deleted : List String
deriving DecidableEq, Repr

/-- `serialize_diff(diff)`. -/
def serializeDiff (diff : DiffResult) : SerializedDiff :=
  { added := diff.added.map (fun pf => (pf.1, codeFileToDict pf.2))
  , modified := diff.modified.map (fun pf => (pf.1, codeFileToDict pf.2))
  , deleted := diff.deleted }

/-- `deserialize_diff(diff_dict)`. -/
def deserializeDiff (diff_dict : SerializedDiff) : DiffResult :=
  { added := diff_dict.added.map (fun pd => (pd.1, codeFileFromDict pd.2))
  , modified := diff_dict.modified.map (fun pd => (pd.1, codeFileFromDict pd.2))
  , deleted := diff_dict.deleted }

/-- `get_changed_files(diff)`: all paths touched by a diff. -/
def getChangedFiles (diff : DiffResult) : List String :=
  dkeys diff.added ++ dkeys diff.modified ++ diff.deleted

/-!
Embedding of src/app/modules/code_ingestion/storage.py and of the session
schema (src/app/schemas/debug.py, which is not present under src).

Modelled from the spec: `DebuggingPayload` and `DebuggingSession`
(app.schemas.debug) are absent from src/; they are reconstructed from the
spec's data model (section 3) and from their construction sites in
session.py and the tests: a payload carries context/error/logs, the
`path -> content` codebase and an optional session id; a session carries
id, context, error, logs, the current snapshot, both timestamps, optional
free-form metadata holding the `version_history` list (the only key the
session code ever stores there, modelled as a record) and an optional
`snapshot_id` (both optional with absent defaults, as in the tests'
constructor calls).

The durable store (Supabase) holds one JSON object per snapshot/session id;
`json_dumps`/`json_loads` of those objects is a faithful round trip on the
string fields involved, so durable records are kept in typed form.  The
Redis hash cache is the lossy tier: `set_hash_cache` stores `str(v)` of each
field and `get_hash_cache` attempts `json.loads` on each field on the way
out.  That read-side decode is modelled by `pyJsonLoads` on the `content`
field, where it is observable; id/timestamp fields are uuid-like or ISO
strings on which `json.loads` always fails (leaving the raw string), so they
are modelled as identity.  Python exceptions raised on the storage paths are
the `PyErr` error monad.
-/

/-- Python exception classes that the embedded code can raise. -/
inductive PyErr where
  | typeError
  | attributeError
  | valueError
deriving DecidableEq, Repr

/-- Result of `json.loads` on a cached scalar field, restricted to the JSON
fragment relevant here: integer literals and escape-free string literals.
Any other input is treated as a decode failure (`none`), as `json.loads`
fails on ordinary source text. -/
inductive JVal where
  | jstr (s : String)
  | jint (n : Nat)
deriving DecidableEq, Repr

/-- Decimal digits to a number. -/
def digitsToNat (cs : List Char) : Nat :=
  cs.foldl (fun n c => n * 10 + (c.toNat - 48)) 0

/-- The `json.loads` attempt that `get_hash_cache` applies to every field:
decodes integer literals (no leading zero) and escape-free string literals;
everything else raises `JSONDecodeError`, upon which the raw string is kept. -/
def pyJsonLoads (s : String) : Option JVal :=
  let cs := s.toList
  if cs ≠ [] ∧ cs.all Char.isDigit ∧ (cs.head? = some '0' → cs = ['0']) then
    some (JVal.jint (digitsToNat cs))
  else if cs.length ≥ 2 ∧ cs.head? = some '"' ∧ cs.getLast? = some '"' ∧
      ((cs.drop 1).dropLast.all (fun c => ¬ c = '"' ∧ ¬ c = '\x5c')) then
    some (JVal.jstr (String.mk ((cs.drop 1).dropLast)))
  else none

/-- The snapshot-level Redis hash written by `store_snapshot` (key
`deebo:snapshot:<id>`): id, ISO timestamp, file count, and the snapshot
metadata (`metadata or {}`) serialized through JSON. -/
structure SnapCacheEntry where
  id : String
  timestamp : String
  file_count : Nat
  metadata : Meta
deriving DecidableEq, Repr

/-- The per-file Redis hash written by `store_snapshot` (key
`deebo:file:<snapshot_id>:<path>`): path, raw `str(content)`, and the file
metadata (`metadata or {}`) serialized through JSON. -/
structure FileCacheEntry where
  path : String
  content : String
  metadata : Meta
deriving DecidableEq, Repr

/-- The session-level Redis hash written by `store_debugging_session` (key
`deebo:session:<id>`).  Note what is absent: the session's free-form
metadata, hence its `version_history`. -/
structure SessCacheEntry where
  id : String
  snapshot_id : String
  created_at : String
  updated_at : String
  context : String
  error : String
  logs : String
deriving DecidableEq, Repr

/-- `VersionEntry` of a session's version history (a dict in the source;
`diff` and `reverted_from` are keys only some writers set). -/
structure VersionEntry where
  version : Int
  snapshot_id : String
  timestamp : String
  description : String
  diff : Option SerializedDiff
  reverted_from : Option Int
deriving DecidableEq, Repr

/-- The session metadata dict: the session code only ever stores the
`version_history` key there. -/
structure SessionMeta where
  version_history : List VersionEntry
deriving DecidableEq, Repr

/-- Modelled from the spec: `DebuggingPayload` of app.schemas.debug (absent
from src/): context/error/logs, the `path -> content` codebase, and the
optional id of the session to update. -/
structure DebuggingPayload where
  context : String
  error : String
  logs : String
  codebase : Dict String
  session_id : Option String
deriving DecidableEq, Repr

/-- Modelled from the spec: `DebuggingSession` of app.schemas.debug (absent
from src/): session identity and context, current snapshot, timestamps,
optional metadata holding the version history, optional snapshot id pointer
(both default to absent when a constructor omits them). -/
structure DebuggingSession where
  id : String
  context : String
  error : String
  logs : String
  snapshot : CodeSnapshot
  created_at : String
  updated_at : String
  metadata : Option SessionMeta
  snapshot_id : Option String
deriving DecidableEq, Repr

/-- State of the two storage tiers behind `SnapshotStorage`: the durable
Supabase objects and the three Redis hash families. -/
structure StorageState where
  durableSnapshots : Dict CodeSnapshot
  durableSessions : Dict DebuggingSession
  cacheSnapshots : Dict SnapCacheEntry
  cacheFiles : Dict FileCacheEntry
  cacheSessions : Dict SessCacheEntry
deriving DecidableEq, Repr

/-- The empty storage state. -/
def emptyStorageState : StorageState := ⟨[], [], [], [], []⟩

/-- The Redis size limit of storage.py: 512 KiB. -/
def sizeLimit : Nat := 512 * 1024

/-- The cache key `f"{snapshot_id}:{path}"` of a per-file hash. -/
def fileCacheKey (snapshotId path : String) : String := snapshotId ++ ":" ++ path

/-- `SnapshotStorage.store_snapshot`: write the full snapshot durably first,
then mirror snapshot metadata into the cache, then mirror each file whose
UTF-8 content size is below the 512 KiB limit. -/
def storeSnapshot (st : StorageState) (snapshot : CodeSnapshot) : StorageState :=
  let st1 := { st with
    durableSnapshots := dset st.durableSnapshots snapshot.id snapshot }
  let st2 := { st1 with
    cacheSnapshots := dset st1.cacheSnapshots snapshot.id
      ⟨snapshot.id, snapshot.timestamp, snapshot.files.length,
       snapshot.metadata.getD []⟩ }
  snapshot.files.foldl
    (fun acc pf =>
      if pf.2.content.utf8ByteSize < sizeLimit then
        { acc with
          cacheFiles := dset acc.cacheFiles (fileCacheKey snapshot.id pf.1)
            ⟨pf.1, pf.2.content, pf.2.metadata.getD []⟩ }
      else acc)
    st2

/-- Reconstruction of one file on the cache-metadata-present path of
`get_snapshot`: prefer the cached copy when present, truthy after the
`json.loads` attempt, and under the size limit; otherwise fall back to the
durable copy of the same path.  A cached content that decodes to a nonzero
integer reaches `content.encode()` as an int and raises AttributeError. -/
def rebuildOne (st : StorageState) (snapshotId : String) (p : String)
    (fdur : CodeFile) : Except PyErr CodeFile :=
  let durableCopy : CodeFile := ⟨p, fdur.content, fdur.metadata⟩
  match dget? st.cacheFiles (fileCacheKey snapshotId p) with
  | none => Except.ok durableCopy
  | some fe =>
      match pyJsonLoads fe.content with
      | some (JVal.jint n) =>
          if n = 0 then Except.ok durableCopy else Except.error PyErr.attributeError
      | some (JVal.jstr s) =>
          if s = "" then Except.ok durableCopy
          else if s.utf8ByteSize < sizeLimit then Except.ok ⟨p, s, some fe.metadata⟩
          else Except.ok durableCopy
      | none =>
          if fe.content = "" then Except.ok durableCopy
          else if fe.content.utf8ByteSize < sizeLimit then
            Except.ok ⟨p, fe.content, some fe.metadata⟩
          else Except.ok durableCopy

/-- File-by-file reconstruction loop of `get_snapshot`, iterating the durable
snapshot's file keys in order. -/
def rebuildFiles (st : StorageState) (snapshotId : String) :
    Dict CodeFile → Except PyErr (Dict CodeFile)
  | [] => Except.ok []
  | (p, fdur) :: rest =>
      match rebuildOne st snapshotId p fdur with
      | Except.error e => Except.error e
      | Except.ok f =>
          match rebuildFiles st snapshotId rest with
          | Except.error e => Except.error e
          | Except.ok fs => Except.ok ((p, f) :: fs)

/-- `SnapshotStorage.get_snapshot`: the durable copy is fetched first and is
a terminal miss when absent; with cache metadata present the files are
reconstructed tier-by-tier; with no cache metadata the durable snapshot is
returned and lazily re-stored (write-through on read miss). -/
def getSnapshot (st : StorageState) (snapshotId : String) :
    Except PyErr (Option CodeSnapshot × StorageState) :=
  match dget? st.durableSnapshots snapshotId with
  | none => Except.ok (none, st)
  | some snapData =>
      match dget? st.cacheSnapshots snapshotId with
      | some cmeta =>
          match rebuildFiles st snapshotId snapData.files with
          | Except.error e => Except.error e
          | Except.ok files =>
              Except.ok (some ⟨snapshotId, cmeta.timestamp, files,
                some cmeta.metadata⟩, st)
      | none =>
          let snapshot := snapData
          Except.ok (some snapshot, storeSnapshot st snapshot)

/-- `SnapshotStorage.store_debugging_session`: store the snapshot first, then
the session durably (with its `snapshot_id` pointer), then the session-level
cache hash — which carries no session metadata. -/
def storeDebuggingSession (st : StorageState) (session : DebuggingSession)
    (snapshot : CodeSnapshot) : StorageState :=
  let st1 := storeSnapshot st snapshot
  let stored := { session with snapshot_id := some snapshot.id }
  let st2 := { st1 with
    durableSessions := dset st1.durableSessions session.id stored }
  { st2 with
    cacheSessions := dset st2.cacheSessions session.id
      ⟨session.id, snapshot.id, session.created_at, session.updated_at,
       session.context, session.error, session.logs⟩ }

/-- `SnapshotStorage.get_debugging_session`: try the session cache hash first
and rebuild the session from it (without metadata, hence without any
version history); fall back to the durable record, resolving its snapshot
and re-caching.  A session whose snapshot cannot be resolved is a miss. -/
def getDebuggingSession (st : StorageState) (sessionId : String) :
    Except PyErr (Option DebuggingSession × StorageState) :=
  let fromDurable : StorageState → Except PyErr (Option DebuggingSession × StorageState) :=
    fun st1 =>
      match dget? st1.durableSessions sessionId with
      | none => Except.ok (none, st1)
      | some sdata =>
          match getSnapshot st1 (sdata.snapshot_id.getD "") with
          | Except.error e => Except.error e
          | Except.ok (none, st2) => Except.ok (none, st2)
          | Except.ok (some snapshot, st2) =>
              let session := { sdata with snapshot := snapshot }
              Except.ok (some session, storeDebuggingSession st2 session snapshot)
  match dget? st.cacheSessions sessionId with
  | some ce =>
      if ce.id = "" then fromDurable st
      else
        match getSnapshot st ce.snapshot_id with
        | Except.error e => Except.error e
        | Except.ok (some snapshot, st1) =>
            Except.ok (some ⟨sessionId, ce.context, ce.error, ce.logs, snapshot,
              ce.created_at, ce.updated_at, none, none⟩, st1)
        | Except.ok (none, st1) => fromDurable st1
  | none => fromDurable st

/-!
Embedding of src/app/modules/code_ingestion/session.py and of
CodeIngestionManager.process_debugging_payload (snapshot.py).  The fresh
uuids of each operation and the clock are explicit parameters.
-/

/-- State of a `SessionManager`: its storage and the in-memory
`_active_sessions` working set. -/
structure MgrState where
  storage : StorageState
  active : Dict DebuggingSession
deriving DecidableEq, Repr

/-- A fresh manager over empty storage. -/
def emptyMgrState : MgrState := ⟨emptyStorageState, []⟩

/-- The file map a session operation builds from a payload: every payload
path, with metadata from the extractor. -/
def filesOfPayload (env : PyEnv) (now : String) (codebase : Dict String) :
    Dict CodeFile :=
  codebase.map (fun pc => (pc.1, (⟨pc.1, pc.2, some (extractFileMetadata env now pc.1 pc.2)⟩ : CodeFile)))

/-- `SessionManager.create_session(payload)`: build the initial snapshot from
the payload's full codebase, a session with a one-entry version history,
persist both and remember the session as active. -/
def createSession (env : PyEnv) (ms : MgrState) (payload : DebuggingPayload)
    (sessionId snapshotId now : String) : DebuggingSession × MgrState :=
  let files := filesOfPayload env now payload.codebase
  let snapshot : CodeSnapshot :=
    { id := snapshotId
    , timestamp := now
    , files := files
    , metadata := some
        [("session_id", MVal.mstr sessionId), ("version", MVal.mint 1),
         ("context", MVal.mstr payload.context), ("error", MVal.mstr payload.error),
         ("logs", MVal.mstr payload.logs)] }
  let session : DebuggingSession :=
    { id := sessionId
    , context := payload.context
    , error := payload.error
    , logs := payload.logs
    , snapshot := snapshot
    , created_at := now
    , updated_at := now
    , metadata := some ⟨[⟨1, snapshotId, now, "Initial snapshot", none, none⟩]⟩
    , snapshot_id := none }
  let st' := storeDebuggingSession ms.storage session snapshot
  (session, ⟨st', dset ms.active sessionId session⟩)

/-- `SessionManager.update_session(session_id, payload)`: load the session
from storage (None when absent), replace the file set with the payload's,
compute and embed the diff, append the next version entry, persist.
`session.metadata["version_history"]` raises TypeError when the loaded
session carries no metadata. -/
def updateSession (env : PyEnv) (ms : MgrState) (sessionId : String)
    (payload : DebuggingPayload) (snapshotId now : String) :
    Except PyErr (Option DebuggingSession × MgrState) :=
  match getDebuggingSession ms.storage sessionId with
  | Except.error e => Except.error e
  | Except.ok (none, st1) => Except.ok (none, { ms with storage := st1 })
  | Except.ok (some session, st1) =>
      match session.metadata with
      | none => Except.error PyErr.typeError
      | some meta =>
          let new_files := filesOfPayload env now payload.codebase
          let version : Int := (meta.version_history.length : Int) + 1
          let new_snapshot : CodeSnapshot :=
            { id := snapshotId
            , timestamp := now
            , files := new_files
            , metadata := some
                [("session_id", MVal.mstr sessionId), ("version", MVal.mint version),
                 ("context", MVal.mstr payload.context),
                 ("error", MVal.mstr payload.error), ("logs", MVal.mstr payload.logs)] }
          let diff := calculateDiff session.snapshot new_snapshot
          let entry : VersionEntry :=
            ⟨version, snapshotId, now,
             "Update with " ++ toString diff.modified.length ++ " modified files",
             some (serializeDiff diff), none⟩
          let session' := { session with
            context := payload.context
          , error := payload.error
          , logs := payload.logs
          , snapshot := new_snapshot
          , updated_at := now
          , metadata := some ⟨meta.version_history ++ [entry]⟩ }
          let st2 := storeDebuggingSession st1 session' new_snapshot
          Except.ok (some session', ⟨st2, dset ms.active sessionId session'⟩)

/-- `SessionManager.get_session(session_id)`: the active working set first,
then storage, remembering a storage hit as active. -/
def getSession (ms : MgrState) (sessionId : String) :
    Except PyErr (Option DebuggingSession × MgrState) :=
  match dget? ms.active sessionId with
  | some session => Except.ok (some session, ms)
  | none =>
      match getDebuggingSession ms.storage sessionId with
      | Except.error e => Except.error e
      | Except.ok (some session, st1) =>
          Except.ok (some session, ⟨st1, dset ms.active sessionId session⟩)
      | Except.ok (none, st1) => Except.ok (none, { ms with storage := st1 })

/-- `SessionManager.revert_to_version(session_id, version)`: out-of-range
versions are a no-op returning None; in range, the historical snapshot is
fetched and a new forward version entry with `reverted_from` and no diff is
appended. -/
def revertToVersion (ms : MgrState) (sessionId : String) (version : Int)
    (now : String) : Except PyErr (Option DebuggingSession × MgrState) :=
  match getSession ms sessionId with
  | Except.error e => Except.error e
  | Except.ok (none, ms1) => Except.ok (none, ms1)
  | Except.ok (some session, ms1) =>
      match session.metadata with
      | none => Except.error PyErr.typeError
      | some meta =>
          let history := meta.version_history
          if version < 1 ∨ version > (history.length : Int) then
            Except.ok (none, ms1)
          else
            match history.get? (version - 1).toNat with
            | none => Except.ok (none, ms1)
            | some target =>
                match getSnapshot ms1.storage target.snapshot_id with
                | Except.error e => Except.error e
                | Except.ok (none, st2) =>
                    Except.ok (none, { ms1 with storage := st2 })
                | Except.ok (some snapshot, st2) =>
                    let entry : VersionEntry :=
                      ⟨(history.length : Int) + 1, snapshot.id, now,
                       "Reverted to version " ++ toString version, none, some version⟩
                    let session' := { session with
                      snapshot := snapshot
                    , updated_at := now
                    , metadata := some ⟨history ++ [entry]⟩ }
                    let st3 := storeDebuggingSession st2 session' snapshot
                    Except.ok (some session',
                      ⟨st3, dset ms1.active sessionId session'⟩)

/-- The ignore-pattern list of `CodeIngestionManager`. -/
def ignorePatterns : List String :=
  [".git", "node_modules", "__pycache__", ".docker", ".venv", ".env",
   ".DS_Store", "*.pyc", "*.pyo", "*.pyd", "*.so", "*.dylib", "*.dll",
   "*.log", "*.tmp"]

/-- `fnmatch(normalized_path, pattern)` for the `*suffix` patterns of the
ignore list (a leading `*` in fnmatch matches any prefix, including
separators), i.e. an ends-with test. -/
def fnmatchStar (normalized pattern : String) : Bool :=
  charsStart (pattern.toList.drop 1).reverse normalized.toList.reverse

/-- `CodeIngestionManager.is_valid_file(file_path)`: a file is ingested when
no ignore pattern matches (wildcard patterns via fnmatch; plain patterns as
a path prefix or an inner `/<pattern>` segment). -/
def isValidFile (patterns : List String) (filePath : String) : Bool :=
  let normalized := String.mk (filePath.toList.map
    (fun c => if c = '\x5c' then '/' else c))
  patterns.all (fun pattern =>
    if charsStart ['*'] pattern.toList then ¬ fnmatchStar normalized pattern
    else ¬ (charsStart pattern.toList normalized.toList ∨
      charsContain ("/" ++ pattern).toList normalized.toList))

/-- `CodeIngestionManager.process_debugging_payload(payload)`: filters the
payload's files through `is_valid_file` into `valid_files`, then ignores
that set entirely, delegating to update_session (whose None result raises
ValueError) or create_session on the raw payload; returns the session's
snapshot and metadata. -/
def processDebuggingPayload (env : PyEnv) (ms : MgrState)
    (payload : DebuggingPayload) (sessionId snapshotId now : String) :
    Except PyErr ((CodeSnapshot × Option SessionMeta) × MgrState) :=
  let valid_files : Dict CodeFile :=
    (payload.codebase.filter (fun pc => isValidFile ignorePatterns pc.1)).map
      (fun pc => (pc.1, (⟨pc.1, pc.2, some (extractFileMetadata env now pc.1 pc.2)⟩ : CodeFile)))
  match payload.session_id with
  | some sid =>
      match updateSession env ms sid payload snapshotId now with
      | Except.error e => Except.error e
      | Except.ok (none, _) => Except.error PyErr.valueError
      | Except.ok (some session, ms') =>
          Except.ok ((session.snapshot, session.metadata), ms')
  | none =>
      let (session, ms') := createSession env ms payload sessionId snapshotId now
      Except.ok ((session.snapshot, session.metadata), ms')

/-!
Lemmas about the diff engine.
-/

theorem ofirst_assoc {α : Type} (a b c : Option α) :
    ofirst (ofirst a b) c = ofirst a (ofirst b c) := by
  cases a <;> rfl

theorem ofirst_isSome {α : Type} (a b : Option α) :
    (ofirst a b).isSome = (a.isSome || b.isSome) := by
  cases a <;> cases b <;> rfl

theorem mem_dkeys_reverse {α : Type} (l : Dict α) (k : String) :
    k ∈ dkeys l.reverse ↔ k ∈ dkeys l := by
  simp [dkeys]

theorem dkeys_map_self {α : Type} (l : List String) (f : String → α) :
    dkeys (l.map (fun p => (p, f p))) = l := by
  induction l with
  | nil => rfl
  | cons p rest ih => simp [dkeys] at ih ⊢; exact ih

theorem mem_added_calculateDiff (old_snapshot new_snapshot : CodeSnapshot) (p : String) :
    p ∈ dkeys (calculateDiff old_snapshot new_snapshot).added ↔
      p ∈ dkeys new_snapshot.files ∧ ¬ p ∈ dkeys old_snapshot.files := by
  simp [calculateDiff, dkeys_map_self, List.mem_filter]

theorem mem_deleted_calculateDiff (old_snapshot new_snapshot : CodeSnapshot) (p : String) :
    p ∈ (calculateDiff old_snapshot new_snapshot).deleted ↔
      p ∈ dkeys old_snapshot.files ∧ ¬ p ∈ dkeys new_snapshot.files := by
  simp [calculateDiff, List.mem_filter]

theorem mem_modified_calculateDiff (old_snapshot new_snapshot : CodeSnapshot) (p : String) :
    p ∈ dkeys (calculateDiff old_snapshot new_snapshot).modified ↔
      p ∈ dkeys old_snapshot.files ∧ p ∈ dkeys new_snapshot.files ∧
        contentAt old_snapshot.files p ≠ contentAt new_snapshot.files p := by
  simp [calculateDiff, dkeys_map_self, List.mem_filter, and_assoc]
  tauto

theorem dget?_applyAdds (l : Dict CodeFile) (d : Dict CodeFile) (k : String) :
    dget? (applyAdds d l) k = ofirst (dget? l.reverse k) (dget? d k) := by
  induction l generalizing d with
  | nil => simp [applyAdds]
  | cons x xs ih =>
      have hstep : applyAdds d (x :: xs) = applyAdds (dset d x.1 x.2) xs := rfl
      rw [hstep, ih]
      rw [List.reverse_cons, dget?_append]
      rw [ofirst_assoc]
      congr 1
      rw [dget?_dset]
      by_cases h : k = x.1 <;> simp [dget?, h]

theorem isSome_applyAdds (l : Dict CodeFile) (d : Dict CodeFile) (k : String) :
    (dget? (applyAdds d l) k).isSome ↔ k ∈ dkeys d ∨ k ∈ dkeys l := by
  rw [dget?_applyAdds, ofirst_isSome]
  rw [Bool.or_eq_true]
  rw [dget?_isSome_iff_mem, dget?_isSome_iff_mem, mem_dkeys_reverse]
  tauto

theorem dget?_applyMods (l : Dict CodeFile) (d : Dict CodeFile) (k : String) :
    dget? (applyMods d l) k =
      if (dget? d k).isSome then ofirst (dget? l.reverse k) (dget? d k)
      else dget? d k := by
  induction l generalizing d with
  | nil =>
      by_cases h : (dget? d k).isSome <;> simp [applyMods, h]
  | cons x xs ih =>
      have hstep : applyMods d (x :: xs) =
          applyMods (if (dget? d x.1).isSome then dset d x.1 x.2 else d) xs := rfl
      by_cases hx : (dget? d x.1).isSome
      · rw [hstep, if_pos hx, ih]
        by_cases hk : k = x.1
        · subst hk
          rw [dget?_dset, if_pos rfl]
          rw [if_pos (by simp : (some x.2).isSome = true), if_pos hx]
          rw [List.reverse_cons, dget?_append, ofirst_assoc]
          congr 1
          simp [dget?]
        · rw [dget?_dset, if_neg hk]
          by_cases hdk : (dget? d k).isSome
          · rw [if_pos hdk, if_pos hdk, List.reverse_cons, dget?_append, ofirst_assoc]
            congr 1
            simp [dget?, hk]
          · rw [if_neg hdk, if_neg hdk]
      · rw [hstep, if_neg hx, ih]
        by_cases hdk : (dget? d k).isSome
        · rw [if_pos hdk, if_pos hdk, List.reverse_cons, dget?_append, ofirst_assoc]
          congr 1
          have hk : ¬ k = x.1 := fun h => hx (h ▸ hdk)
          simp [dget?, hk]
        · rw [if_neg hdk, if_neg hdk]

theorem isSome_applyMods (l : Dict CodeFile) (d : Dict CodeFile) (k : String) :
    (dget? (applyMods d l) k).isSome = (dget? d k).isSome := by
  rw [dget?_applyMods]
  by_cases h : (dget? d k).isSome
  · simp [h, ofirst_isSome]
  · simp [h]

theorem dget?_applyDels (l : List String) (d : Dict CodeFile) (k : String) :
    dget? (applyDels d l) k = if k ∈ l then none else dget? d k := by
  induction l generalizing d with
  | nil => simp [applyDels]
  | cons p ps ih =>
      have hstep : applyDels d (p :: ps) =
          applyDels (if (dget? d p).isSome then derase d p else d) ps := rfl
      have hacc : dget? (if (dget? d p).isSome then derase d p else d) k =
          if k = p then none else dget? d k := by
        by_cases hp : (dget? d p).isSome
        · rw [if_pos hp, dget?_derase]
        · rw [if_neg hp]
          by_cases hk : k = p
          · subst hk
            rw [if_pos rfl]
            cases hd : dget? d k with
            | none => rfl
            | some v =>
                exact absurd (by rw [hd]; rfl) hp
          · rw [if_neg hk]
      rw [hstep, ih, hacc]
      by_cases h1 : k ∈ ps
      · rw [if_pos h1, if_pos (by simp [h1] : k ∈ p :: ps)]
      · rw [if_neg h1]
        by_cases h2 : k = p
        · rw [if_pos h2, if_pos (by simp [h2] : k ∈ p :: ps)]
        · rw [if_neg h2, if_neg (by simp [h1, h2] : ¬ k ∈ p :: ps)]

theorem dget?_filesOfPayload (env : PyEnv) (now : String) (codebase : Dict String)
    (p : String) :
    dget? (filesOfPayload env now codebase) p =
      (dget? codebase p).map
        (fun c => (⟨p, c, some (extractFileMetadata env now p c)⟩ : CodeFile)) :=
  dget?_map_entry codebase
    (fun a b => (⟨a, b, some (extractFileMetadata env now a b)⟩ : CodeFile)) p

theorem dkeys_filesOfPayload (env : PyEnv) (now : String) (codebase : Dict String) :
    dkeys (filesOfPayload env now codebase) = dkeys codebase :=
  dkeys_map_entry codebase
    (fun a b => (⟨a, b, some (extractFileMetadata env now a b)⟩ : CodeFile))

/-!
Shared concrete objects used by witnesses and counterexamples.
-/

/-- A concrete external environment: a parser that rejects every input and a
constant mime sniffer. -/
def env0 : PyEnv := ⟨fun _ => Except.error (), fun _ => "text/plain"⟩

/-!
The claims.
-/

/-- Claim C1: `calculate_diff(old, new)` classifies the union of the two path
sets into four disjoint groups — added (in new, not old), deleted (in old,
not new), modified (in both, content differing by exact string comparison),
and unchanged paths appearing in none of the three result sets; no path is
in more than one of added/modified/deleted. -/
theorem calculateDiff_partitions_paths (old_snapshot new_snapshot : CodeSnapshot)
    (p : String) :
    (p ∈ dkeys (calculateDiff old_snapshot new_snapshot).added ↔
       p ∈ dkeys new_snapshot.files ∧ ¬ p ∈ dkeys old_snapshot.files) ∧
    (p ∈ (calculateDiff old_snapshot new_snapshot).deleted ↔
       p ∈ dkeys old_snapshot.files ∧ ¬ p ∈ dkeys new_snapshot.files) ∧
    (p ∈ dkeys (calculateDiff old_snapshot new_snapshot).modified ↔
       p ∈ dkeys old_snapshot.files ∧ p ∈ dkeys new_snapshot.files ∧
         contentAt old_snapshot.files p ≠ contentAt new_snapshot.files p) ∧
    ¬ (p ∈ dkeys (calculateDiff old_snapshot new_snapshot).added ∧
       p ∈ dkeys (calculateDiff old_snapshot new_snapshot).modified) ∧
    ¬ (p ∈ dkeys (calculateDiff old_snapshot new_snapshot).added ∧
       p ∈ (calculateDiff old_snapshot new_snapshot).deleted) ∧
    ¬ (p ∈ dkeys (calculateDiff old_snapshot new_snapshot).modified ∧
       p ∈ (calculateDiff old_snapshot new_snapshot).deleted) ∧
    ((p ∈ dkeys old_snapshot.files ∨ p ∈ dkeys new_snapshot.files) ∧
       ¬ p ∈ dkeys (calculateDiff old_snapshot new_snapshot).added ∧
       ¬ p ∈ dkeys (calculateDiff old_snapshot new_snapshot).modified ∧
       ¬ p ∈ (calculateDiff old_snapshot new_snapshot).deleted ↔
     p ∈ dkeys old_snapshot.files ∧ p ∈ dkeys new_snapshot.files ∧
       contentAt old_snapshot.files p = contentAt new_snapshot.files p) := by
  have hA := mem_added_calculateDiff old_snapshot new_snapshot p
  have hD := mem_deleted_calculateDiff old_snapshot new_snapshot p
  have hM := mem_modified_calculateDiff old_snapshot new_snapshot p
  refine ⟨hA, hD, hM, ?_, ?_, ?_, ?_⟩
  · rw [hA, hM]; tauto
  · rw [hA, hD]; tauto
  · rw [hM, hD]; tauto
  · rw [hA, hM, hD]; tauto

/-- Claim C7: `deserialize_diff(serialize_diff(D)) = D` — the round trip is
lossless on the added and modified maps and on the deleted paths. -/
theorem serializeDiff_roundtrip (D : DiffResult) :
    deserializeDiff (serializeDiff D) = D := by
  have h1 : ∀ l : Dict CodeFile,
      (l.map (fun pf => (pf.1, codeFileToDict pf.2))).map
        (fun pd => (pd.1, codeFileFromDict pd.2)) = l := by
    intro l
    induction l with
    | nil => rfl
    | cons p rest ih =>
        rw [List.map_cons, List.map_cons, ih]
        rfl
  cases D with
  | mk added modified deleted =>
      simp only [serializeDiff, deserializeDiff]
      rw [h1, h1]

/-- Claim C8: metadata extraction never aborts — for a Python file whose
source fails to parse, the structural summary degrades to empty
classes/functions/imports lists; non-Python files carry no structure key. -/
theorem extractFileMetadata_parse_failure_degrades (env : PyEnv)
    (now path content : String) :
    (detectLanguage path content = "Python" →
      ∀ e : Unit, env.parse content = Except.error e →
        dget? (extractFileMetadata env now path content) "structure" =
          some (MVal.mstructure ⟨[], [], []⟩)) ∧
    (¬ detectLanguage path content = "Python" →
      dget? (extractFileMetadata env now path content) "structure" = none) := by
  constructor
  · intro h e hp
    unfold extractFileMetadata
    simp [h, dget?_append, dget?, analyzePythonStructure, hp]
  · intro h
    unfold extractFileMetadata
    simp [h, dget?]

/-- Witness for C8 at a concrete malformed Python file. -/
theorem extractFileMetadata_parse_failure_degrades_witness :
    detectLanguage "bad.py" "def f(:" = "Python" ∧
    env0.parse "def f(:" = Except.error () ∧
    dget? (extractFileMetadata env0 "t0" "bad.py" "def f(:") "structure" =
      some (MVal.mstructure ⟨[], [], []⟩) :=
  ⟨by decide, rfl,
   (extractFileMetadata_parse_failure_degrades env0 "t0" "bad.py" "def f(:").1
     (by decide) () rfl⟩

/-- Claim C9 counterexample: `extract_file_metadata` is not a pure function of
(path, content) — two invocations at different clock instants return
different metadata (the `last_modified` field records the invocation time). -/
theorem extractFileMetadata_not_pure :
    extractFileMetadata env0 "2025-01-01T00:00:00" "a.py" "x" ≠
      extractFileMetadata env0 "2025-01-01T00:00:01" "a.py" "x" := by
  intro h
  have h2 : some (MVal.mstr "2025-01-01T00:00:00") =
      some (MVal.mstr "2025-01-01T00:00:01") :=
    congrArg (fun m => dget? m "last_modified") h
  exact absurd h2 (by decide)

/-- Claim C9 as amended: two invocations of `extract_file_metadata` with the
same (path, content) pair agree on every metadata key other than
`last_modified`, which records the invocation time. -/
theorem extractFileMetadata_pure_except_lastModified (env : PyEnv)
    (now1 now2 path content : String) :
    (∀ k, ¬ k = "last_modified" →
      dget? (extractFileMetadata env now1 path content) k =
        dget? (extractFileMetadata env now2 path content) k) ∧
    dget? (extractFileMetadata env now1 path content) "last_modified" =
      some (MVal.mstr now1) := by
  constructor
  · intro k hk
    unfold extractFileMetadata
    by_cases h : detectLanguage path content = "Python" <;>
      simp [h, dget?, dget?_append, hk]
  · unfold extractFileMetadata
    by_cases h : detectLanguage path content = "Python" <;>
      simp [h, dget?, dget?_append]

/-- Witness for the amended C9 at a concrete key. -/
theorem extractFileMetadata_pure_except_lastModified_witness :
    ¬ ("language" : String) = "last_modified" ∧
    dget? (extractFileMetadata env0 "t1" "a.py" "x") "language" =
      dget? (extractFileMetadata env0 "t2" "a.py" "x") "language" :=
  ⟨by decide,
   (extractFileMetadata_pure_except_lastModified env0 "t1" "t2" "a.py" "x").1
     "language" (by decide)⟩

/-- Claim C4: `apply_diff(base, diff)` keeps `base.id`, stamps the application
time, extends the base metadata with the audit record of the three counts,
and produces the file map obtained from `base.files` by inserting every
added entry, overwriting a modified entry only when its path is already in
the working set (base or added) — so `modified` never introduces a path —
and removing every deleted path. -/
theorem applyDiff_spec (base_snapshot : CodeSnapshot) (diff : DiffResult)
    (now p : String)
    (hA : (dkeys diff.added).Nodup) (hM : (dkeys diff.modified).Nodup) :
    (applyDiff base_snapshot diff now).id = base_snapshot.id ∧
    (applyDiff base_snapshot diff now).timestamp = now ∧
    (applyDiff base_snapshot diff now).metadata =
      some (dset (base_snapshot.metadata.getD []) "diff_applied"
        (MVal.maudit now diff.added.length diff.modified.length
          diff.deleted.length)) ∧
    (p ∈ diff.deleted → dget? (applyDiff base_snapshot diff now).files p = none) ∧
    (¬ p ∈ diff.deleted → p ∈ dkeys diff.modified →
      (p ∈ dkeys base_snapshot.files ∨ p ∈ dkeys diff.added) →
      dget? (applyDiff base_snapshot diff now).files p = dget? diff.modified p) ∧
    (¬ p ∈ diff.deleted → ¬ p ∈ dkeys diff.modified → p ∈ dkeys diff.added →
      dget? (applyDiff base_snapshot diff now).files p = dget? diff.added p) ∧
    (¬ p ∈ diff.deleted → ¬ p ∈ dkeys diff.added →
      ¬ (p ∈ dkeys diff.modified ∧ p ∈ dkeys base_snapshot.files) →
      dget? (applyDiff base_snapshot diff now).files p =
        dget? base_snapshot.files p) ∧
    ((dget? (applyDiff base_snapshot diff now).files p).isSome →
      p ∈ dkeys base_snapshot.files ∨ p ∈ dkeys diff.added) := by
  have hfiles : (applyDiff base_snapshot diff now).files =
      applyDels (applyMods (applyAdds base_snapshot.files diff.added)
        diff.modified) diff.deleted := rfl
  refine ⟨rfl, rfl, rfl, ?_, ?_, ?_, ?_, ?_⟩
  · intro hd
    rw [hfiles, dget?_applyDels, if_pos hd]
  · intro hnd hm hin
    rw [hfiles, dget?_applyDels, if_neg hnd, dget?_applyMods]
    have hu1 : (dget? (applyAdds base_snapshot.files diff.added) p).isSome :=
      (isSome_applyAdds diff.added base_snapshot.files p).2 hin
    rw [if_pos hu1, dget?_reverse_of_nodup diff.modified hM p]
    have hms : (dget? diff.modified p).isSome := (dget?_isSome_iff_mem _ _).2 hm
    cases hmm : dget? diff.modified p with
    | none => rw [hmm] at hms; simp at hms
    | some v => rfl
  · intro hnd hnm ha
    rw [hfiles, dget?_applyDels, if_neg hnd, dget?_applyMods]
    have hu1 : (dget? (applyAdds base_snapshot.files diff.added) p).isSome :=
      (isSome_applyAdds diff.added base_snapshot.files p).2 (Or.inr ha)
    rw [if_pos hu1]
    have hmrev : dget? diff.modified.reverse p = none :=
      dget?_eq_none_of_not_mem _ p
        (fun hx => hnm ((mem_dkeys_reverse diff.modified p).1 hx))
    rw [hmrev, ofirst_none, dget?_applyAdds,
      dget?_reverse_of_nodup diff.added hA p]
    have has : (dget? diff.added p).isSome := (dget?_isSome_iff_mem _ _).2 ha
    cases haa : dget? diff.added p with
    | none => rw [haa] at has; simp at has
    | some v => rfl
  · intro hnd hna hnmb
    rw [hfiles, dget?_applyDels, if_neg hnd, dget?_applyMods, dget?_applyAdds]
    have harev : dget? diff.added.reverse p = none :=
      dget?_eq_none_of_not_mem _ p
        (fun hx => hna ((mem_dkeys_reverse diff.added p).1 hx))
    rw [harev, ofirst_none]
    by_cases hb : (dget? base_snapshot.files p).isSome
    · rw [if_pos hb]
      have hpm : ¬ p ∈ dkeys diff.modified :=
        fun hm => hnmb ⟨hm, (dget?_isSome_iff_mem _ _).1 hb⟩
      have hmrev : dget? diff.modified.reverse p = none :=
        dget?_eq_none_of_not_mem _ p
          (fun hx => hpm ((mem_dkeys_reverse diff.modified p).1 hx))
      rw [hmrev, ofirst_none]
    · rw [if_neg hb]
  · intro hs
    rw [hfiles, dget?_applyDels] at hs
    by_cases hd : p ∈ diff.deleted
    · rw [if_pos hd] at hs; simp at hs
    · rw [if_neg hd, isSome_applyMods] at hs
      exact (isSome_applyAdds diff.added base_snapshot.files p).1 hs

/-- A concrete base snapshot for the C4 witness. -/
def c4Base : CodeSnapshot :=
  ⟨"base", "t0", [("a", ⟨"a", "1", none⟩), ("c", ⟨"c", "3", none⟩)], none⟩

/-- A concrete diff for the C4 witness: one added, one modified, one deleted. -/
def c4Diff : DiffResult :=
  ⟨[("b", ⟨"b", "2", none⟩)], [("a", ⟨"a", "9", none⟩)], ["c"]⟩

/-- Witness for C4: the modified entry overwrites, the deleted path is gone. -/
theorem applyDiff_spec_witness :
    (dkeys c4Diff.added).Nodup ∧ (dkeys c4Diff.modified).Nodup ∧
    ¬ "a" ∈ c4Diff.deleted ∧ "a" ∈ dkeys c4Diff.modified ∧
    "a" ∈ dkeys c4Base.files ∧ "c" ∈ c4Diff.deleted ∧
    dget? (applyDiff c4Base c4Diff "t1").files "a" = dget? c4Diff.modified "a" ∧
    dget? (applyDiff c4Base c4Diff "t1").files "c" = none :=
  ⟨by decide, by decide, by decide, by decide, by decide, by decide,
   (applyDiff_spec c4Base c4Diff "t1" "a" (by decide) (by decide)).2.2.2.2.1
     (by decide) (by decide) (Or.inl (by decide)),
   (applyDiff_spec c4Base c4Diff "t1" "c" (by decide) (by decide)).2.2.2.1
     (by decide)⟩

/-- The snapshot of the C3 failing input: one small file whose content is the
five bytes `"hi"` including the quotes — a valid JSON string literal. -/
def c3Snapshot : CodeSnapshot :=
  ⟨"snapC", "timeC", [("a.txt", ⟨"a.txt", "\"hi\"", none⟩)], none⟩

/-- The storage state after storing the C3 snapshot. -/
def c3Stored : StorageState := storeSnapshot emptyStorageState c3Snapshot

/-- What `get_snapshot` actually returns for the C3 snapshot: the cached
content was JSON-decoded, so the quotes are stripped. -/
def c3Returned : CodeSnapshot :=
  ⟨"snapC", "timeC", [("a.txt", ⟨"a.txt", "hi", some []⟩)], some []⟩

/-- Claim C3, failing evaluation: storing a snapshot whose file content is
`"hi"` (with quotes, 5 bytes, far under the 512 KiB limit) and reading it
back returns content `hi` — `get_hash_cache` re-decodes the cached raw
string through `json.loads`, so the round trip is not byte-identical. -/
theorem getSnapshot_cache_decode_corrupts_content :
    getSnapshot c3Stored "snapC" = Except.ok (some c3Returned, c3Stored) ∧
    contentAt c3Snapshot.files "a.txt" = some "\"hi\"" ∧
    contentAt c3Returned.files "a.txt" = some "hi" ∧
    ¬ contentAt c3Returned.files "a.txt" = contentAt c3Snapshot.files "a.txt" :=
  ⟨rfl, rfl, rfl, by decide⟩

/-- The ingestion payload of the C2 failing run. -/
def c2PayloadA : DebuggingPayload :=
  ⟨"first context", "first error", "first logs", [("a.py", "x=1\n")], none⟩

/-- The update payload of the C2 failing run. -/
def c2PayloadB : DebuggingPayload :=
  ⟨"second context", "second error", "second logs", [("a.py", "x=2\n")], none⟩

/-- The manager state right after `create_session` on the C2 payload. -/
def c2State : MgrState :=
  (createSession env0 emptyMgrState c2PayloadA "sessA" "snapA" "timeA").2

/-- Projection: the metadata of the session produced by a storage fetch. -/
def fetchedSessionMeta
    (r : Except PyErr (Option DebuggingSession × StorageState)) :
    Option (Option SessionMeta) :=
  match r with
  | Except.ok (some session, _) => some session.metadata
  | _ => none

/-- Claim C2, failing evaluation: a freshly created session has the single
version-1 history entry, but `get_debugging_session` serves it from the
session cache hash without any metadata, so the very first `update_session`
raises TypeError instead of appending entry 2 — the claimed invariant fails
on the cache path. -/
theorem updateSession_cache_path_loses_history :
    (createSession env0 emptyMgrState c2PayloadA "sessA" "snapA" "timeA").1.metadata =
      some ⟨[⟨1, "snapA", "timeA", "Initial snapshot", none, none⟩]⟩ ∧
    fetchedSessionMeta (getDebuggingSession c2State.storage "sessA") = some none ∧
    updateSession env0 c2State "sessA" c2PayloadB "snapB" "timeB" =
      Except.error PyErr.typeError :=
  ⟨rfl, rfl, rfl⟩

/-- Claim C5: for a session served from the manager's working set with a
well-formed version history, `revert_to_version` is a no-op returning
absent for any out-of-range version (history untouched, state unchanged),
and for an in-range version whose snapshot is retrievable it appends exactly
one entry at position length+1 carrying `reverted_from` and no diff payload,
sets the session snapshot, and keeps every existing entry (append only). -/
theorem revertToVersion_spec (ms : MgrState) (sessionId : String)
    (session : DebuggingSession) (meta : SessionMeta) (now : String)
    (hactive : dget? ms.active sessionId = some session)
    (hmeta : session.metadata = some meta) :
    (∀ version : Int,
      (version < 1 ∨ version > (meta.version_history.length : Int)) →
      revertToVersion ms sessionId version now = Except.ok (none, ms)) ∧
    (∀ (version : Int) (target : VersionEntry) (snapshot : CodeSnapshot)
        (st2 : StorageState),
      1 ≤ version → version ≤ (meta.version_history.length : Int) →
      meta.version_history.get? (version - 1).toNat = some target →
      getSnapshot ms.storage target.snapshot_id =
        Except.ok (some snapshot, st2) →
      ∃ session' ms2 entry,
        revertToVersion ms sessionId version now =
          Except.ok (some session', ms2) ∧
        session'.metadata = some ⟨meta.version_history ++ [entry]⟩ ∧
        entry.version = (meta.version_history.length : Int) + 1 ∧
        entry.reverted_from = some version ∧
        entry.diff = none ∧
        entry.snapshot_id = snapshot.id ∧
        session'.snapshot = snapshot) := by
  have hget : getSession ms sessionId = Except.ok (some session, ms) := by
    unfold getSession
    rw [hactive]
  constructor
  · intro version hv
    unfold revertToVersion
    rw [hget]
    simp only [hmeta]
    rw [if_pos hv]
  · intro version target snapshot st2 h1 h2 htarget hsnap
    have hcond : ¬ (version < 1 ∨ version > (meta.version_history.length : Int)) := by
      omega
    unfold revertToVersion
    rw [hget]
    simp only [hmeta]
    rw [if_neg hcond]
    simp only [htarget]
    simp only [hsnap]
    exact ⟨_, _, _, rfl, rfl, rfl, rfl, rfl, rfl, rfl⟩

/-- The snapshot referenced by the single history entry of the C5 witness. -/
def c5Snap : CodeSnapshot := ⟨"snapR", "t0", [("a.py", ⟨"a.py", "pass", none⟩)], none⟩

/-- The single history entry of the C5 witness session. -/
def c5Entry : VersionEntry := ⟨1, "snapR", "t0", "Initial snapshot", none, none⟩

/-- The C5 witness session, active in the manager with a one-entry history. -/
def c5Session : DebuggingSession :=
  ⟨"sessR", "c", "e", "l", c5Snap, "t0", "t0", some ⟨[c5Entry]⟩, none⟩

/-- The C5 witness manager state: snapshot stored, session in the working set. -/
def c5State : MgrState :=
  ⟨storeSnapshot emptyStorageState c5Snap, [("sessR", c5Session)]⟩

/-- What `get_snapshot` returns for the stored C5 snapshot. -/
def c5SnapBack : CodeSnapshot :=
  ⟨"snapR", "t0", [("a.py", ⟨"a.py", "pass", some []⟩)], some []⟩

/-- Witness for C5: version 0 is a no-op; reverting to version 1 appends
entry 2 with `reverted_from = 1` and no diff. -/
theorem revertToVersion_spec_witness :
    dget? c5State.active "sessR" = some c5Session ∧
    c5Session.metadata = some ⟨[c5Entry]⟩ ∧
    ((0 : Int) < 1 ∨ (0 : Int) > 1) ∧
    revertToVersion c5State "sessR" 0 "t1" = Except.ok (none, c5State) ∧
    [c5Entry].get? ((1 : Int) - 1).toNat = some c5Entry ∧
    getSnapshot c5State.storage c5Entry.snapshot_id =
      Except.ok (some c5SnapBack, c5State.storage) ∧
    (∃ session' ms2 entry,
      revertToVersion c5State "sessR" 1 "t1" = Except.ok (some session', ms2) ∧
      session'.metadata = some ⟨[c5Entry] ++ [entry]⟩ ∧
      entry.version = (1 : Int) + 1 ∧
      entry.reverted_from = some 1 ∧
      entry.diff = none ∧
      entry.snapshot_id = c5SnapBack.id ∧
      session'.snapshot = c5SnapBack) :=
  ⟨rfl, rfl, Or.inl (by decide),
   (revertToVersion_spec c5State "sessR" c5Session ⟨[c5Entry]⟩ "t1" rfl rfl).1 0
     (Or.inl (by decide)),
   rfl, rfl,
   (revertToVersion_spec c5State "sessR" c5Session ⟨[c5Entry]⟩ "t1" rfl rfl).2 1
     c5Entry c5SnapBack c5State.storage (by decide) (by decide) rfl rfl⟩

/-- Claim C6: `update_session` returns absent (no exception) when the session
does not exist; when it exists (with a well-formed history) the payload is a
complete replacement — the new snapshot's paths are exactly the payload's
paths, and every old path missing from the payload is gone and recorded in
the appended entry's serialized diff as deleted. -/
theorem updateSession_replaces_file_set :
    (∀ (env : PyEnv) (ms : MgrState) (sessionId : String)
        (payload : DebuggingPayload) (snapshotId now : String)
        (st' : StorageState),
      getDebuggingSession ms.storage sessionId = Except.ok (none, st') →
      updateSession env ms sessionId payload snapshotId now =
        Except.ok (none, { ms with storage := st' })) ∧
    (∀ (env : PyEnv) (ms : MgrState) (sessionId : String)
        (payload : DebuggingPayload) (snapshotId now : String)
        (session : DebuggingSession) (st' : StorageState) (meta : SessionMeta),
      getDebuggingSession ms.storage sessionId =
        Except.ok (some session, st') →
      session.metadata = some meta →
      ∃ session' ms2 entry sd,
        updateSession env ms sessionId payload snapshotId now =
          Except.ok (some session', ms2) ∧
        (∀ p, (dget? session'.snapshot.files p).isSome ↔
          (dget? payload.codebase p).isSome) ∧
        session'.metadata = some ⟨meta.version_history ++ [entry]⟩ ∧
        entry.version = (meta.version_history.length : Int) + 1 ∧
        entry.diff = some sd ∧
        (∀ p, (dget? session.snapshot.files p).isSome →
          dget? payload.codebase p = none →
          dget? session'.snapshot.files p = none ∧ p ∈ sd.deleted)) := by
  constructor
  · intro env ms sessionId payload snapshotId now st' hget
    unfold updateSession
    rw [hget]
  · intro env ms sessionId payload snapshotId now session st' meta hget hmeta
    unfold updateSession
    rw [hget]
    simp only [hmeta]
    refine ⟨_, _, _, _, rfl, ?_, rfl, rfl, rfl, ?_⟩
    · intro p
      show (dget? (filesOfPayload env now payload.codebase) p).isSome ↔
        (dget? payload.codebase p).isSome
      rw [dget?_filesOfPayload]
      cases dget? payload.codebase p <;> simp
    · intro p hold hnew
      constructor
      · show dget? (filesOfPayload env now payload.codebase) p = none
        rw [dget?_filesOfPayload, hnew]
        rfl
      · show p ∈ (calculateDiff session.snapshot
          { id := snapshotId, timestamp := now
          , files := filesOfPayload env now payload.codebase
          , metadata := some
              [("session_id", MVal.mstr sessionId),
               ("version", MVal.mint ((meta.version_history.length : Int) + 1)),
               ("context", MVal.mstr payload.context),
               ("error", MVal.mstr payload.error),
               ("logs", MVal.mstr payload.logs)] }).deleted
        rw [mem_deleted_calculateDiff]
        refine ⟨(dget?_isSome_iff_mem _ _).1 hold, ?_⟩
        intro hmem
        have h3 : (dget? (filesOfPayload env now payload.codebase) p).isSome :=
          (dget?_isSome_iff_mem _ _).2 hmem
        rw [dget?_filesOfPayload, hnew] at h3
        simp at h3

/-- The pre-existing stored snapshot of the C6/C10 witness session. -/
def c6Snap : CodeSnapshot :=
  ⟨"snapW", "t0", [("old.py", ⟨"old.py", "x=0", none⟩)], some []⟩

/-- The C6/C10 witness session, durably stored with a one-entry history. -/
def c6Session : DebuggingSession :=
  ⟨"sessW", "c", "e", "l", c6Snap, "t0", "t0",
   some ⟨[⟨1, "snapW", "t0", "Initial snapshot", none, none⟩]⟩, some "snapW"⟩

/-- The C6/C10 witness storage: session and snapshot only in the durable
tier (the cache is empty), so the fetch preserves the metadata. -/
def c6Storage : StorageState :=
  ⟨[("snapW", c6Snap)], [("sessW", c6Session)], [], [], []⟩

/-- Manager state over the C6/C10 witness storage. -/
def c6State : MgrState := ⟨c6Storage, []⟩

/-- The update payload of the C6/C10 witness: `old.py` is absent from it. -/
def c6Payload : DebuggingPayload :=
  ⟨"c2", "e2", "l2", [("new.py", "y=1")], some "sessW"⟩

/-- The state of the witness storage after the durable fetch re-caches. -/
def c6StorageAfter : StorageState :=
  (storeDebuggingSession (storeSnapshot c6Storage c6Snap) c6Session c6Snap)

/-- Witness for C6: the durable fetch finds the session with its history; the
update replaces the file set and records `old.py` as deleted; and an unknown
id yields absent. -/
theorem updateSession_replaces_file_set_witness :
    getDebuggingSession c6State.storage "sessW" =
      Except.ok (some c6Session, c6StorageAfter) ∧
    c6Session.metadata =
      some ⟨[⟨1, "snapW", "t0", "Initial snapshot", none, none⟩]⟩ ∧
    (∃ session' ms2 entry sd,
      updateSession env0 c6State "sessW" c6Payload "snapX" "t1" =
        Except.ok (some session', ms2) ∧
      (∀ p, (dget? session'.snapshot.files p).isSome ↔
        (dget? c6Payload.codebase p).isSome) ∧
      session'.metadata = some ⟨[⟨1, "snapW", "t0", "Initial snapshot", none,
        none⟩] ++ [entry]⟩ ∧
      entry.version = ((1 : Nat) : Int) + 1 ∧
      entry.diff = some sd ∧
      (∀ p, (dget? c6Session.snapshot.files p).isSome →
        dget? c6Payload.codebase p = none →
        dget? session'.snapshot.files p = none ∧ p ∈ sd.deleted)) ∧
    getDebuggingSession emptyMgrState.storage "nosuch" =
      Except.ok (none, emptyStorageState) ∧
    updateSession env0 emptyMgrState "nosuch" c6Payload "snapX" "t1" =
      Except.ok (none, emptyMgrState) :=
  ⟨rfl, rfl,
   updateSession_replaces_file_set.2 env0 c6State "sessW" c6Payload "snapX" "t1"
     c6Session c6StorageAfter ⟨[⟨1, "snapW", "t0", "Initial snapshot", none, none⟩]⟩
     rfl rfl,
   rfl,
   updateSession_replaces_file_set.1 env0 emptyMgrState "nosuch" c6Payload
     "snapX" "t1" emptyStorageState rfl⟩

/-- Claim C10: neither `create_session` nor `update_session` filters payload
files — the stored snapshot's path set is exactly the payload's path set,
and `process_debugging_payload` (which computes and then discards the
ignore-filtered file set) hands the raw payload through. -/
theorem ingestion_keeps_all_payload_files :
    (∀ (env : PyEnv) (ms : MgrState) (payload : DebuggingPayload)
        (sessionId snapshotId now : String),
      dkeys (createSession env ms payload sessionId snapshotId now).1.snapshot.files =
        dkeys payload.codebase) ∧
    (∀ (env : PyEnv) (ms : MgrState) (sessionId : String)
        (payload : DebuggingPayload) (snapshotId now : String)
        (session : DebuggingSession) (st' : StorageState) (meta : SessionMeta),
      getDebuggingSession ms.storage sessionId =
        Except.ok (some session, st') →
      session.metadata = some meta →
      ∃ session' ms2,
        updateSession env ms sessionId payload snapshotId now =
          Except.ok (some session', ms2) ∧
        dkeys session'.snapshot.files = dkeys payload.codebase) ∧
    (∀ (env : PyEnv) (ms : MgrState) (payload : DebuggingPayload)
        (sessionId snapshotId now : String),
      payload.session_id = none →
      ∃ ms2,
        processDebuggingPayload env ms payload sessionId snapshotId now =
          Except.ok
            (((createSession env ms payload sessionId snapshotId now).1.snapshot,
              (createSession env ms payload sessionId snapshotId now).1.metadata),
             ms2) ∧
        dkeys (createSession env ms payload sessionId snapshotId now).1.snapshot.files =
          dkeys payload.codebase) := by
  refine ⟨?_, ?_, ?_⟩
  · intro env ms payload sessionId snapshotId now
    exact dkeys_filesOfPayload env now payload.codebase
  · intro env ms sessionId payload snapshotId now session st' meta hget hmeta
    unfold updateSession
    rw [hget]
    simp only [hmeta]
    refine ⟨_, _, rfl, ?_⟩
    exact dkeys_filesOfPayload env now payload.codebase
  · intro env ms payload sessionId snapshotId now hsid
    unfold processDebuggingPayload
    rw [hsid]
    refine ⟨_, rfl, ?_⟩
    exact dkeys_filesOfPayload env now payload.codebase

/-- The payload of the C10 witness: a path the ignore filter rejects. -/
def c10Payload : DebuggingPayload :=
  ⟨"c", "e", "l", [(".git/config", "secret")], none⟩

/-- Witness for C10: `.git/config` fails `is_valid_file`, yet it is the sole
path of the snapshot produced by processing the payload. -/
theorem ingestion_keeps_all_payload_files_witness :
    isValidFile ignorePatterns ".git/config" = false ∧
    c10Payload.session_id = none ∧
    dkeys (createSession env0 emptyMgrState c10Payload "s" "n" "t").1.snapshot.files =
      dkeys c10Payload.codebase ∧
    (∃ ms2,
      processDebuggingPayload env0 emptyMgrState c10Payload "s" "n" "t" =
        Except.ok
          (((createSession env0 emptyMgrState c10Payload "s" "n" "t").1.snapshot,
            (createSession env0 emptyMgrState c10Payload "s" "n" "t").1.metadata),
           ms2) ∧
      dkeys (createSession env0 emptyMgrState c10Payload "s" "n" "t").1.snapshot.files =
        dkeys c10Payload.codebase) :=
  ⟨by decide, rfl,
   ingestion_keeps_all_payload_files.1 env0 emptyMgrState c10Payload "s" "n" "t",
   ingestion_keeps_all_payload_files.2.2 env0 emptyMgrState c10Payload "s" "n" "t"
     rfl⟩

end DebugPro
